import Mathlib

/-!
Verification of the sandbox-runtime policy-enforcement core.

The definitions below are a shallow embedding of the repository's Rust
sources (src/proxy/http_proxy.rs, src/proxy/socks_proxy.rs,
src/sandbox/macos.rs, src/sandbox/linux.rs, src/sandbox/violation_store.rs,
src/sandbox/manager.rs).  Pure functions are translated as Lean functions;
fallible operations return Except; external collaborators (the regex engine
backing compiled patterns, shell path expansion, the docker driver, the
filesystem and process spawning) are modelled explicitly, with side effects
recorded in explicit effect traces.
-/

/-! ## Regex model

The proxies compile domain patterns through the external regex crate.
A compiled pattern is modelled as a sequence of atoms: the fragment of
regex syntax reachable from the output of domain_to_regex (literal
characters, escaped characters, the any-character class, and the postfix
star and plus quantifiers), matched against the whole string (the Rust
code anchors every pattern with a leading caret and a trailing dollar).
Matching is implemented as the standard derivative-style NFA run, which
agrees with the regex crate's leftmost-match semantics on anchored
patterns of this fragment.
-/

/-- Character class appearing in a compiled domain pattern: a literal
character or the any-character class (unescaped dot). -/
inductive CharClass where
  | lit (c : Char)
  | any
deriving DecidableEq, Repr

/-- One atom of a compiled pattern: a single occurrence, a starred
occurrence (zero or more) or a plus occurrence (one or more) of a
character class. -/
inductive Atom where
  | once (cc : CharClass)
  | star (cc : CharClass)
  | plus (cc : CharClass)
deriving DecidableEq, Repr

/-- Does the character class accept the character. -/
def ccMatch : CharClass → Char → Bool
  | .lit c, d => c = d
  | .any, _ => true

/-- Does the compiled pattern accept the empty string. -/
def nullable : List Atom → Bool
  | [] => true
  | .once _ :: _ => false
  | .plus _ :: _ => false
  | .star _ :: rest => nullable rest

/-- Brzozowski derivative of a compiled pattern by one character,
returned as the list of alternative residual patterns. -/
def derivOne : List Atom → Char → List (List Atom)
  | [], _ => []
  | .once cc :: rest, c => if ccMatch cc c then [rest] else []
  | .star cc :: rest, c =>
      (if ccMatch cc c then [Atom.star cc :: rest] else []) ++ derivOne rest c
  | .plus cc :: rest, c => if ccMatch cc c then [Atom.star cc :: rest] else []

/-- One step of the NFA run: derive every live alternative by the next
character. -/
def stepStates (states : List (List Atom)) (c : Char) : List (List Atom) :=
  states.flatMap (fun r => derivOne r c)

/-- Run the NFA from a set of alternatives over the rest of the input;
accept when some live alternative is nullable at the end. -/
def acceptsFrom : List (List Atom) → List Char → Bool
  | states, [] => states.any nullable
  | states, c :: s => acceptsFrom (stepStates states c) s

/-- Anchored match of a compiled pattern against a whole string,
modelling Regex.is_match of the anchored pattern built by
domain_to_regex. -/
def reAccepts (r : List Atom) (s : List Char) : Bool :=
  acceptsFrom [r] s

/-! ## Pattern compilation (domain_to_regex)

src/proxy/http_proxy.rs lines 165-172 (and the identical copy in
src/proxy/socks_proxy.rs lines 128-135): the pattern string first has
every dot replaced by a backslash-dot and then every star replaced by
dot-star, and the result is compiled, anchored on both sides.
-/

/-- Metacharacters of the regex fragment that the parser below does not
support as literals; an unescaped occurrence makes compilation fail in
the model (the regex crate gives most of them structural meaning). -/
def metaChar (c : Char) : Bool :=
  c = '(' || c = ')' || c = '[' || c = ']' || c = '\x7b' || c = '\x7d' ||
  c = '|' || c = '?' || c = '^' || c = '$'

/-- Replacement of every occurrence of a single character by a string,
modelling str::replace with a one-character needle. -/
def replaceChar (needle : Char) (repl : List Char) : List Char → List Char
  | [] => []
  | c :: rest => (if c = needle then repl else [c]) ++ replaceChar needle repl rest

/-- Text of the regex built by domain_to_regex (between the added anchor
characters): dots escaped, then stars expanded to dot-star. -/
def compilePattern (pattern : String) : List Char :=
  replaceChar '*' ['.', '*'] (replaceChar '.' ['\\', '.'] pattern.toList)

/-- Atoms pending emission while parsing (the last atom seen, which a
following quantifier may still modify). -/
def emitPending : Option CharClass → List Atom
  | none => []
  | some cc => [Atom.once cc]

/-- Parser for the regex fragment: literals, backslash escapes, the
any-character dot, and postfix star and plus applied to the preceding
single-character atom.  Returns none where the regex crate would reject
the pattern (dangling quantifier, trailing backslash) or where the
pattern leaves the modelled fragment. -/
def parseBodyAux : Option CharClass → List Char → Option (List Atom)
  | pending, [] => some (emitPending pending)
  | pending, c :: rest =>
    if c = '*' then
      match pending with
      | none => none
      | some cc => (parseBodyAux none rest).map (fun as => Atom.star cc :: as)
    else if c = '+' then
      match pending with
      | none => none
      | some cc => (parseBodyAux none rest).map (fun as => Atom.plus cc :: as)
    else if c = '\\' then
      match rest with
      | [] => none
      | d :: rest2 =>
        (parseBodyAux (some (CharClass.lit d)) rest2).map
          (fun as => emitPending pending ++ as)
    else if c = '.' then
      (parseBodyAux (some CharClass.any) rest).map
        (fun as => emitPending pending ++ as)
    else if metaChar c then none
    else
      (parseBodyAux (some (CharClass.lit c)) rest).map
        (fun as => emitPending pending ++ as)

/-- Errors of the runtime, mirroring SandboxError in src/error.rs. -/
inductive SandboxErrorM where
  | Io (msg : String)
  | Config (msg : String)
  | Execution (msg : String)
  | UnsupportedPlatform (msg : String)
  | Proxy (msg : String)
  | Docker (msg : String)
  | Serialization (msg : String)
  | CommandNotFound (msg : String)
  | Violation (msg : String)
  | Other (msg : String)
deriving DecidableEq, Repr

/-- Compilation of a domain pattern into a predicate, modelling
domain_to_regex: escape dots, expand stars, anchor, and compile; a
pattern the engine rejects is a configuration error. -/
def domain_to_regex (pattern : String) : Except SandboxErrorM (List Atom) :=
  match parseBodyAux none (compilePattern pattern) with
  | some r => Except.ok r
  | none => Except.error (SandboxErrorM.Config ("Invalid domain pattern: " ++ pattern))

/-- Convenience predicate used in statements: the compiled form of the
given pattern accepts the given host (false when compilation fails). -/
def patternMatches (pattern host : String) : Bool :=
  match domain_to_regex pattern with
  | Except.ok r => reAccepts r host.toList
  | Except.error _ => false

/-! ## Domain policy decision (is_domain_allowed)

src/proxy/http_proxy.rs lines 149-162 and the identical copy in
src/proxy/socks_proxy.rs lines 112-125.
-/

/-- Decision of the shared domain policy matcher: denied patterns are
checked first and win; an empty allow list defaults to allow; otherwise
some allowed pattern must match. -/
def is_domain_allowed (domain : String) (allowed denied : List (List Atom)) : Bool :=
  if denied.any (fun re => reAccepts re domain.toList) then false
  else if allowed.isEmpty then true
  else allowed.any (fun re => reAccepts re domain.toList)

/-! ## Supporting lemmas about the matcher -/

/-- Characters that domain_to_regex passes through as pure literals:
the dot (which it escapes) and every character that is not a wildcard,
not a quantifier, not a backslash and not a metacharacter of the
fragment. -/
def literalPatternChar (c : Char) : Bool :=
  c = '.' || (!(metaChar c) && !(c = '*') && !(c = '+') && !(c = '\\'))

/-- Compiled form of a pure-literal character list: one single-occurrence
literal atom per character. -/
def litAtoms (l : List Char) : List Atom :=
  l.map (fun c => Atom.once (CharClass.lit c))

theorem acceptsFrom_nil (s : List Char) : acceptsFrom [] s = false := by
  induction s with
  | nil => rfl
  | cons c s ih => simpa [acceptsFrom, stepStates] using ih

theorem acceptsFrom_litAtoms (s : List Char) :
    ∀ p : List Char, acceptsFrom [litAtoms p] s = decide (s = p) := by
  induction s with
  | nil =>
    intro p
    cases p with
    | nil => rfl
    | cons q p' => simp [acceptsFrom, litAtoms, nullable]
  | cons c s ih =>
    intro p
    cases p with
    | nil =>
      simp [acceptsFrom, stepStates, litAtoms, derivOne, acceptsFrom_nil]
    | cons q p' =>
      by_cases hqc : q = c
      · subst hqc
        simpa [acceptsFrom, stepStates, litAtoms, derivOne, ccMatch] using ih p'
      · simp [acceptsFrom, stepStates, litAtoms, derivOne, ccMatch, hqc,
          acceptsFrom_nil, Ne.symm hqc]

theorem replaceChar_append (needle : Char) (repl a b : List Char) :
    replaceChar needle repl (a ++ b) =
      replaceChar needle repl a ++ replaceChar needle repl b := by
  induction a with
  | nil => rfl
  | cons c a ih => simp [replaceChar, ih]

theorem compilePattern_literal (l : List Char) (h : l.all literalPatternChar = true) :
    replaceChar '*' ['.', '*'] (replaceChar '.' ['\\', '.'] l) =
      l.flatMap (fun c => if c = '.' then ['\\', '.'] else [c]) := by
  induction l with
  | nil => rfl
  | cons c rest ih =>
    simp only [List.all_cons, Bool.and_eq_true] at h
    obtain ⟨hc, hrest⟩ := h
    have hstar : c ≠ '*' := by
      intro hceq; subst hceq; simp [literalPatternChar, metaChar] at hc
    by_cases hdot : c = '.'
    · subst hdot
      simp [replaceChar, List.flatMap_cons, ih hrest]
    · simp [replaceChar, hdot, hstar, List.flatMap_cons, ih hrest]

theorem parseBodyAux_literal (l : List Char) (h : l.all literalPatternChar = true) :
    ∀ pending,
      parseBodyAux pending (l.flatMap (fun c => if c = '.' then ['\\', '.'] else [c])) =
        some (emitPending pending ++ litAtoms l) := by
  induction l with
  | nil => intro pending; simp [parseBodyAux, litAtoms]
  | cons c rest ih =>
    intro pending
    simp only [List.all_cons, Bool.and_eq_true] at h
    obtain ⟨hc, hrest⟩ := h
    by_cases hdot : c = '.'
    · subst hdot
      simp only [List.flatMap_cons, if_pos rfl]
      show parseBodyAux pending ('\\' :: '.' :: _) = _
      simp [parseBodyAux, ih hrest, litAtoms, emitPending]
    · simp [literalPatternChar, hdot] at hc
      obtain ⟨⟨⟨hmeta, hstar⟩, hplus⟩, hback⟩ := hc
      simp only [List.flatMap_cons, if_neg hdot]
      show parseBodyAux pending (c :: _) = _
      rw [parseBodyAux.eq_def]
      simp only []
      rw [if_neg hstar, if_neg hplus, if_neg hback, if_neg hdot, if_neg (by simp [hmeta])]
      simp [ih hrest, litAtoms, emitPending]

theorem domain_to_regex_literal (p : String) (h : p.toList.all literalPatternChar = true) :
    domain_to_regex p = Except.ok (litAtoms p.toList) := by
  unfold domain_to_regex compilePattern
  rw [compilePattern_literal p.toList h, parseBodyAux_literal p.toList h none]
  rfl

/-- Compiled form of a pattern, defaulting to the never-matching empty
alternative... more precisely to the empty-string pattern, for use in
concrete instantiations (all the patterns instantiated below compile). -/
def compiledPattern (p : String) : List Atom :=
  match domain_to_regex p with
  | Except.ok r => r
  | Except.error _ => []

/-! ## Claim theorems about the domain policy matcher -/

/-- C1: for every host and every pair of compiled pattern lists,
is_domain_allowed returns false if any denied pattern matches; otherwise
true if the allowed list is empty; otherwise true iff some allowed
pattern matches; in particular a host matched by both an allow and a
deny pattern is always denied. -/
theorem is_domain_allowed_spec (host : String) (allowed denied : List (List Atom)) :
    (denied.any (fun re => reAccepts re host.toList) = true →
        is_domain_allowed host allowed denied = false)
    ∧ (denied.any (fun re => reAccepts re host.toList) = false → allowed = [] →
        is_domain_allowed host allowed denied = true)
    ∧ (denied.any (fun re => reAccepts re host.toList) = false → allowed ≠ [] →
        (is_domain_allowed host allowed denied = true ↔
          allowed.any (fun re => reAccepts re host.toList) = true))
    ∧ (allowed.any (fun re => reAccepts re host.toList) = true →
        denied.any (fun re => reAccepts re host.toList) = true →
        is_domain_allowed host allowed denied = false) := by
  unfold is_domain_allowed
  refine ⟨fun h => by rw [h]; rfl, fun h he => by subst he; rw [h]; rfl,
    fun h hne => ?_, fun _ h => by rw [h]; rfl⟩
  rw [h]
  cases allowed with
  | nil => exact absurd rfl hne
  | cons a l => simp

/-- Witness for C1 at concrete inputs: the host evil.com is matched by
the allow pattern *.com and by the deny pattern evil.com, and the
decision is denial. -/
theorem is_domain_allowed_spec_witness :
    [compiledPattern "evil.com"].any
        (fun re => reAccepts re "evil.com".toList) = true
    ∧ is_domain_allowed "evil.com" [compiledPattern "*.com"]
        [compiledPattern "evil.com"] = false :=
  ⟨by decide,
    (is_domain_allowed_spec "evil.com" [compiledPattern "*.com"]
        [compiledPattern "evil.com"]).1 (by decide)⟩

/-- C2 counterexample: the pattern a+ contains no star, yet its compiled
predicate accepts the string aa, which differs from the pattern itself —
domain_to_regex escapes only dots, so other regex metacharacters keep
their structural meaning. -/
theorem domain_to_regex_exact_counterexample :
    ("a+".toList.all (fun c => !(c = '*')) = true)
    ∧ patternMatches "a+" "aa" = true
    ∧ "aa" ≠ "a+" :=
  ⟨by decide, by decide, by decide⟩

/-- C2 amended: for every pattern built from literal hostname characters
(no star, and no unescaped regex metacharacter such as plus, backslash,
parentheses, brackets, braces, bar, question mark, caret or dollar), the
compiled predicate accepts exactly the pattern string itself; and the
pattern *.example.com matches api.example.com and a.b.example.com but
not example.com. -/
theorem domain_pattern_matching_amended :
    (∀ p s : String, p.toList.all literalPatternChar = true →
        (patternMatches p s = true ↔ s = p))
    ∧ patternMatches "*.example.com" "api.example.com" = true
    ∧ patternMatches "*.example.com" "a.b.example.com" = true
    ∧ patternMatches "*.example.com" "example.com" = false := by
  refine ⟨?_, by decide, by decide, by decide⟩
  intro p s h
  unfold patternMatches
  rw [domain_to_regex_literal p h]
  show reAccepts (litAtoms p.toList) s.toList = true ↔ s = p
  unfold reAccepts
  rw [acceptsFrom_litAtoms]
  simp only [decide_eq_true_eq]
  exact String.toList_inj

/-- Witness for C2 amended at a concrete input: example.com consists of
literal hostname characters and its compiled predicate accepts
example.com itself. -/
theorem domain_pattern_matching_amended_witness :
    ("example.com".toList.all literalPatternChar = true)
    ∧ patternMatches "example.com" "example.com" = true :=
  ⟨by decide,
    (domain_pattern_matching_amended.1 "example.com" "example.com"
        (by decide)).mpr rfl⟩

/-! ## HTTP filtering proxy (handle_request)

src/proxy/http_proxy.rs lines 103-146.  The handler never contacts the
target: denied requests get a 403 with a policy body, allowed CONNECT
requests get an empty 200, allowed plain requests get a canned 200 body.
Outbound connection attempts are recorded in an explicit effect trace so
that their absence is a statement, not an artefact; the source makes
none, and the SOCKS handler below makes exactly one on its allowed path.
-/

/-- Target address learned from a SOCKS5 handshake, mirroring
fast_socks5 TargetAddr: a literal IP (kept in its textual form, which is
what ip.ip().to_string() produces) or a domain with a port. -/
inductive TargetAddr where
  | ip (text : String)
  | domain (name : String) (port : Nat)
deriving DecidableEq, Repr

/-- Outbound network action of a connection handler. -/
inductive NetEffect where
  | connectUpstream (target : TargetAddr)
deriving DecidableEq, Repr

/-- Request method as far as the handler distinguishes it: CONNECT
versus anything else. -/
inductive HttpMethod where
  | CONNECT
  | other (name : String)
deriving DecidableEq, Repr

/-- Parts of an incoming request that handle_request consults: the
method, the host of the request URI if any, and the Host header value
when the header is present and decodes as a string. -/
structure HttpRequest where
  method : HttpMethod
  uriHost : Option String
  hostHeader : Option String
deriving DecidableEq, Repr

/-- Response as built by the handler: status code and string body. -/
structure HttpResponse where
  status : Nat
  body : String
deriving DecidableEq, Repr

/-- Host resolution of handle_request: the URI host, else the Host
header cut at the first colon, else the empty string. -/
def resolveHost (req : HttpRequest) : String :=
  match req.uriHost with
  | some h => h
  | none =>
    match req.hostHeader with
    | some h => (h.splitOn ":").headD ""
    | none => ""

/-- The handler of one HTTP request: resolve the host, consult the
policy, and answer 403 with a policy body, an empty 200 for an allowed
CONNECT, or the canned 200 body for an allowed plain request.  The
effect trace lists the outbound connections attempted — the source makes
none in any branch. -/
def handle_request (req : HttpRequest) (allowed denied : List (List Atom)) :
    HttpResponse × List NetEffect :=
  let host := resolveHost req
  if !(is_domain_allowed host allowed denied) then
    ({ status := 403,
       body := "Access to " ++ host ++ " is blocked by sandbox policy" }, [])
  else if req.method = HttpMethod.CONNECT then
    ({ status := 200, body := "" }, [])
  else
    ({ status := 200, body := "Proxied request" }, [])

/-! ## SOCKS5 filtering proxy (handle_socks_connection)

src/proxy/socks_proxy.rs lines 83-109.  The handshake result and the
upstream connect outcome are supplied by the environment; the model
records the connect attempt in the effect trace.
-/

/-- Errors of the SOCKS handler, mirroring the fast_socks5 error type as
far as the handler distinguishes it: a library-level error carried
through, or the policy error attached via SocksError::Other. -/
inductive SocksErrorM where
  | lib (msg : String)
  | other (msg : String)
deriving DecidableEq, Repr

/-- Textual host extracted from the handshake target: the textual form
of a literal IP, or the domain name. -/
def targetHost : TargetAddr → String
  | .ip text => text
  | .domain name _ => name

/-- The handler of one SOCKS5 connection: upgrade the socket (outcome
supplied by the environment), extract the target host, consult the
policy; a denied host fails the handshake with a policy error before
any connect; an allowed host leads to exactly one upstream connect
attempt whose outcome is the environment's. -/
def handle_socks_connection (upgrade : Except SocksErrorM TargetAddr)
    (allowed denied : List (List Atom))
    (connectOutcome : Except SocksErrorM Unit) :
    Except SocksErrorM Unit × List NetEffect :=
  match upgrade with
  | Except.error e => (Except.error e, [])
  | Except.ok target =>
    let target_host := targetHost target
    if !(is_domain_allowed target_host allowed denied) then
      (Except.error (SocksErrorM.other
        ("Access to " ++ target_host ++ " is blocked by sandbox policy")), [])
    else
      (connectOutcome, [NetEffect.connectUpstream target])

theorem handle_request_status (req : HttpRequest) (a d : List (List Atom)) :
    (handle_request req a d).1.status =
      if is_domain_allowed (resolveHost req) a d then 200 else 403 := by
  by_cases hm : req.method = HttpMethod.CONNECT <;>
    rcases Bool.eq_false_or_eq_true (is_domain_allowed (resolveHost req) a d)
      with h | h <;>
    simp [handle_request, h, hm]

/-- C5: a request whose resolved host the policy rejects is answered 403
with a body naming the blocked host and no outbound action; an allowed
CONNECT is answered 200 with an empty body and no outbound action; an
allowed plain request is answered with the generated 200 body, not
forwarded to the target. -/
theorem handle_request_spec (req : HttpRequest) (allowed denied : List (List Atom)) :
    (is_domain_allowed (resolveHost req) allowed denied = false →
        handle_request req allowed denied =
          ({ status := 403,
             body := "Access to " ++ resolveHost req ++
               " is blocked by sandbox policy" }, []))
    ∧ (is_domain_allowed (resolveHost req) allowed denied = true →
        req.method = HttpMethod.CONNECT →
        handle_request req allowed denied = ({ status := 200, body := "" }, []))
    ∧ (is_domain_allowed (resolveHost req) allowed denied = true →
        req.method ≠ HttpMethod.CONNECT →
        handle_request req allowed denied =
          ({ status := 200, body := "Proxied request" }, [])) := by
  refine ⟨fun h => by simp [handle_request, h],
    fun h hm => by simp [handle_request, h, hm],
    fun h hm => by simp [handle_request, h, hm]⟩

/-- Witness for C5 at a concrete input: a GET for blocked.com under the
policy denying blocked.com is answered 403 with the policy body and an
empty effect trace. -/
theorem handle_request_spec_witness :
    is_domain_allowed
        (resolveHost ⟨HttpMethod.other "GET", some "blocked.com", none⟩)
        [] [compiledPattern "blocked.com"] = false
    ∧ handle_request ⟨HttpMethod.other "GET", some "blocked.com", none⟩
        [] [compiledPattern "blocked.com"] =
        ({ status := 403,
           body := "Access to blocked.com is blocked by sandbox policy" }, []) :=
  ⟨by decide,
    (handle_request_spec ⟨HttpMethod.other "GET", some "blocked.com", none⟩
        [] [compiledPattern "blocked.com"]).1 (by decide)⟩

/-- C10: a request with neither a URI host nor a parseable Host header
is evaluated with the empty string as host: with an empty allow list it
is permitted exactly when no denied pattern matches the empty string,
and with a non-empty allow list it is rejected whenever no allowed
pattern matches the empty string. -/
theorem handle_request_empty_host_spec (method : HttpMethod)
    (allowed denied : List (List Atom)) :
    resolveHost ⟨method, none, none⟩ = ""
    ∧ (handle_request ⟨method, none, none⟩ allowed denied).1.status =
        (if is_domain_allowed "" allowed denied then 200 else 403)
    ∧ (allowed = [] →
        ((handle_request ⟨method, none, none⟩ allowed denied).1.status = 200 ↔
          denied.any (fun re => reAccepts re "".toList) = false))
    ∧ (allowed ≠ [] → allowed.any (fun re => reAccepts re "".toList) = false →
        (handle_request ⟨method, none, none⟩ allowed denied).1.status = 403) := by
  refine ⟨rfl, handle_request_status ⟨method, none, none⟩ allowed denied, ?_, ?_⟩
  · intro he
    subst he
    rw [handle_request_status]
    show (if is_domain_allowed (resolveHost ⟨method, none, none⟩) [] denied
        then (200 : Nat) else 403) = 200 ↔ _
    unfold is_domain_allowed
    rcases Bool.eq_false_or_eq_true
        (denied.any fun re => reAccepts re (resolveHost ⟨method, none, none⟩).toList)
        with h | h
    · rw [h]; simpa using h
    · rw [h]; simpa using h
  · intro hne ha
    rw [handle_request_status]
    show (if is_domain_allowed (resolveHost ⟨method, none, none⟩) allowed denied
        then (200 : Nat) else 403) = 403
    unfold is_domain_allowed
    rcases Bool.eq_false_or_eq_true
        (denied.any fun re => reAccepts re (resolveHost ⟨method, none, none⟩).toList)
        with h | h
    · rw [h]; simp
    · rw [h]
      cases allowed with
      | nil => exact absurd rfl hne
      | cons a l => simpa using ha

/-- Witness for C10 at concrete inputs: with a non-empty allow list that
does not match the empty string, a request with no host information at
all is rejected with status 403. -/
theorem handle_request_empty_host_spec_witness :
    ([compiledPattern "example.com"] ≠ ([] : List (List Atom)))
    ∧ [compiledPattern "example.com"].any
        (fun re => reAccepts re "".toList) = false
    ∧ (handle_request ⟨HttpMethod.other "GET", none, none⟩
        [compiledPattern "example.com"] []).1.status = 403 :=
  ⟨by decide, by decide,
    (handle_request_empty_host_spec (HttpMethod.other "GET")
        [compiledPattern "example.com"] []).2.2.2 (by decide) (by decide)⟩

/-- C4: a SOCKS5 connection whose handshake target is denied by the
policy fails with the policy error and produces no upstream connect
attempt (empty effect trace), whatever the connect outcome would have
been. -/
theorem handle_socks_denied_spec (target : TargetAddr)
    (allowed denied : List (List Atom))
    (connectOutcome : Except SocksErrorM Unit) :
    is_domain_allowed (targetHost target) allowed denied = false →
    handle_socks_connection (Except.ok target) allowed denied connectOutcome =
      (Except.error (SocksErrorM.other
        ("Access to " ++ targetHost target ++ " is blocked by sandbox policy")),
        []) := by
  intro h
  simp [handle_socks_connection, h]

/-- Witness for C4 at a concrete input: a SOCKS5 request for blocked.com
under the policy denying blocked.com fails the handshake with the policy
error and an empty effect trace. -/
theorem handle_socks_denied_spec_witness :
    is_domain_allowed (targetHost (TargetAddr.domain "blocked.com" 443))
        [] [compiledPattern "blocked.com"] = false
    ∧ handle_socks_connection (Except.ok (TargetAddr.domain "blocked.com" 443))
        [] [compiledPattern "blocked.com"] (Except.ok ()) =
      (Except.error (SocksErrorM.other
        "Access to blocked.com is blocked by sandbox policy"), []) :=
  ⟨by decide,
    handle_socks_denied_spec (TargetAddr.domain "blocked.com" 443)
      [] [compiledPattern "blocked.com"] (Except.ok ()) (by decide)⟩

/-! ## Filesystem policy and the macOS profile builder

src/config.rs (FilesystemConfig) and src/sandbox/macos.rs lines 40-104.
Path expansion goes through the external shellexpand crate; it is
modelled as an environment-supplied fallible function.
-/

/-- Filesystem policy, mirroring FilesystemConfig in src/config.rs. -/
structure FilesystemConfigM where
  deny_read : List String
  allow_write : List String
  deny_write : List String
deriving DecidableEq, Repr

/-- Text of a deny-read profile statement for an expanded path. -/
def denyReadStmt (p : String) : String :=
  "(deny file-read* (subpath \"" ++ p ++ "\"))"

/-- Text of an allow-write profile statement for an expanded path. -/
def allowWriteStmt (p : String) : String :=
  "(allow file-write* (subpath \"" ++ p ++ "\"))"

/-- Text of a deny-write profile statement for an expanded path. -/
def denyWriteStmt (p : String) : String :=
  "(deny file-write* (subpath \"" ++ p ++ "\"))"

/-- Text of the network allow statement for one proxy port. -/
def networkAllowStmt (port : Nat) : String :=
  "(allow network* (remote ip \"localhost:" ++ toString port ++ "\"))"

/-- One pass of the profile loops: expand each path in order and emit
one formatted statement per path, stopping at the first expansion
error (the question-mark operator in the Rust loops). -/
def expandAndFormat (expand : String → Except SandboxErrorM String)
    (fmt : String → String) : List String → Except SandboxErrorM (List String)
  | [] => Except.ok []
  | p :: ps =>
    match expand p with
    | Except.error e => Except.error e
    | Except.ok x =>
      match expandAndFormat expand fmt ps with
      | Except.error e => Except.error e
      | Except.ok xs => Except.ok (fmt x :: xs)

/-- Filesystem section of the macOS profile: allow all reads, then one
deny-read per denyRead path, then one allow-write per allowWrite path,
then one deny-write per denyWrite path, in the order of the policy
lists. -/
def add_filesystem_rules (expand : String → Except SandboxErrorM String)
    (fs : FilesystemConfigM) : Except SandboxErrorM (List String) :=
  match expandAndFormat expand denyReadStmt fs.deny_read with
  | Except.error e => Except.error e
  | Except.ok dr =>
    match expandAndFormat expand allowWriteStmt fs.allow_write with
    | Except.error e => Except.error e
    | Except.ok aw =>
      match expandAndFormat expand denyWriteStmt fs.deny_write with
      | Except.error e => Except.error e
      | Except.ok dw => Except.ok ("(allow file-read*)" :: (dr ++ aw ++ dw))

/-- Network allow lines for an optionally-set proxy port. -/
def optPortLines : Option Nat → List String
  | none => []
  | some port => [networkAllowStmt port]

/-- Fixed opening statements of every generated profile: version,
deny-by-default baseline, and the unconditional process, sysctl and
mach allows. -/
def profileHeader : List String :=
  ["(version 1)", "(deny default)", "(allow process*)", "(allow sysctl*)",
    "(allow mach*)"]

/-- The macOS seatbelt profile as its ordered list of statements:
header, network allows for the proxy ports that are set, then the
filesystem section. -/
def generate_profile (fs : FilesystemConfigM) (http_port socks_port : Option Nat)
    (expand : String → Except SandboxErrorM String) :
    Except SandboxErrorM (List String) :=
  match add_filesystem_rules expand fs with
  | Except.error e => Except.error e
  | Except.ok fsLines =>
    Except.ok (profileHeader ++ optPortLines http_port ++ optPortLines socks_port
      ++ fsLines)

/-- Rendering of the statement list to the profile text, one statement
per line as the Rust code pushes them. -/
def profileText (lines : List String) : String :=
  String.join (lines.map (fun l => l ++ "\n"))

/-! ## Linux argument builder

src/sandbox/linux.rs lines 93-124.  Existence of an expanded path on
disk at build time is an environment-supplied predicate.
-/

/-- Read-write bind-mount arguments for the allowWrite paths: each path
is expanded (an expansion error aborts), and contributes a bind triple
exactly when the expanded path exists on disk. -/
def bwrapBindArgs (expand : String → Except SandboxErrorM String)
    (path_exists : String → Bool) : List String → Except SandboxErrorM (List String)
  | [] => Except.ok []
  | p :: ps =>
    match expand p with
    | Except.error e => Except.error e
    | Except.ok x =>
      match bwrapBindArgs expand path_exists ps with
      | Except.error e => Except.error e
      | Except.ok rest =>
        Except.ok ((if path_exists x then ["--bind", x, x] else []) ++ rest)

/-- Filesystem arguments of the bubblewrap invocation: the root bound
read-only as the baseline, the read-write bind-mounts for existing
allowWrite paths, then fresh /tmp, /dev and /proc. -/
def add_filesystem_args (expand : String → Except SandboxErrorM String)
    (path_exists : String → Bool) (fs : FilesystemConfigM) :
    Except SandboxErrorM (List String) :=
  match bwrapBindArgs expand path_exists fs.allow_write with
  | Except.error e => Except.error e
  | Except.ok binds =>
    Except.ok (["--ro-bind", "/", "/"] ++ binds
      ++ ["--tmpfs", "/tmp", "--dev", "/dev", "--proc", "/proc"])

/-! ## Supporting lemmas for the profile builders -/

theorem expandAndFormat_mem (expand : String → Except SandboxErrorM String)
    (fmt : String → String) :
    ∀ (ps xs : List String), expandAndFormat expand fmt ps = Except.ok xs →
      ∀ p e, p ∈ ps → expand p = Except.ok e → fmt e ∈ xs := by
  intro ps
  induction ps with
  | nil => intro xs h p e hp; cases hp
  | cons q ps ih =>
    intro xs h p e hp hexp
    unfold expandAndFormat at h
    cases hq : expand q with
    | error err => rw [hq] at h; cases h
    | ok x =>
      rw [hq] at h
      cases hr : expandAndFormat expand fmt ps with
      | error err => rw [hr] at h; cases h
      | ok rest =>
        rw [hr] at h
        injection h with h2
        subst h2
        cases hp with
        | head =>
          rw [hexp] at hq
          injection hq with hx
          subst hx
          exact List.mem_cons_self _ _
        | tail _ hp2 =>
          exact List.mem_cons_of_mem _ (ih rest hr p e hp2 hexp)

theorem append_index_pair {α : Type} (A xs ys : List α) (x y : α)
    (hx : x ∈ xs) (hy : y ∈ ys) :
    ∃ i j : Nat, i < j ∧ (A ++ xs ++ ys)[i]? = some x ∧ (A ++ xs ++ ys)[j]? = some y := by
  obtain ⟨i0, hi0⟩ := List.getElem?_of_mem hx
  obtain ⟨j0, hj0⟩ := List.getElem?_of_mem hy
  have hi0lt : i0 < xs.length := (List.getElem?_eq_some.mp hi0).1
  refine ⟨A.length + i0, A.length + xs.length + j0, by omega, ?_, ?_⟩
  · rw [List.getElem?_append_left (by simp [List.length_append]; omega)]
    rw [List.getElem?_append_right (Nat.le_add_right _ _)]
    simpa using hi0
  · rw [List.getElem?_append_right (by simp [List.length_append])]
    simpa [List.length_append, Nat.add_sub_cancel_left] using hj0

theorem infix_flatMap {α β : Type} (f : α → List β) {a : α} {l : List α}
    (h : a ∈ l) : List.IsInfix (f a) (l.flatMap f) := by
  induction l with
  | nil => cases h
  | cons b l ih =>
    cases h with
    | head => exact ⟨[], l.flatMap f, by simp⟩
    | tail _ h2 =>
      obtain ⟨u, v, huv⟩ := ih h2
      exact ⟨f b ++ u, v, by rw [List.flatMap_cons, ← huv]; simp⟩

theorem infix_extend {α : Type} {x mid : List α} (A B : List α)
    (h : List.IsInfix x mid) : List.IsInfix x (A ++ mid ++ B) := by
  obtain ⟨u, v, huv⟩ := h
  exact ⟨A ++ u, v ++ B, by rw [← huv]; simp⟩

theorem bwrapBindArgs_eq (expand : String → Except SandboxErrorM String)
    (path_exists : String → Bool) :
    ∀ (ps es : List String),
      expandAndFormat expand (fun x => x) ps = Except.ok es →
      bwrapBindArgs expand path_exists ps =
        Except.ok ((es.filter path_exists).flatMap (fun e => ["--bind", e, e])) := by
  intro ps
  induction ps with
  | nil =>
    intro es h
    injection h with h2
    subst h2
    rfl
  | cons q ps ih =>
    intro es h
    unfold expandAndFormat at h
    cases hq : expand q with
    | error err => rw [hq] at h; cases h
    | ok x =>
      rw [hq] at h
      cases hr : expandAndFormat expand (fun x => x) ps with
      | error err => rw [hr] at h; cases h
      | ok rest =>
        rw [hr] at h
        injection h with h2
        subst h2
        unfold bwrapBindArgs
        rw [hq, ih rest hr]
        by_cases hpe : path_exists x = true <;>
          simp [List.filter_cons, hpe]

/-! ## Claim theorems about the profile builders -/

/-- C6: under successful path expansion, the macOS profile statements
appear in the order deny-default baseline, unconditional allows, network
allows for the set proxy ports, allow-all-file-read, deny-read lines,
allow-write lines, deny-write lines last; hence a path in both
allowWrite and denyWrite has its deny file-write statement strictly
after its allow file-write statement. -/
theorem generate_profile_order_spec (fs : FilesystemConfigM) (hp sp : Option Nat)
    (expand : String → Except SandboxErrorM String) (dr aw dw : List String)
    (hdr : expandAndFormat expand denyReadStmt fs.deny_read = Except.ok dr)
    (haw : expandAndFormat expand allowWriteStmt fs.allow_write = Except.ok aw)
    (hdw : expandAndFormat expand denyWriteStmt fs.deny_write = Except.ok dw) :
    generate_profile fs hp sp expand = Except.ok
      (profileHeader ++ optPortLines hp ++ optPortLines sp
        ++ ("(allow file-read*)" :: dr) ++ aw ++ dw)
    ∧ ∀ p e, p ∈ fs.allow_write → p ∈ fs.deny_write → expand p = Except.ok e →
        ∃ i j : Nat, i < j ∧
          (profileHeader ++ optPortLines hp ++ optPortLines sp
            ++ ("(allow file-read*)" :: dr) ++ aw ++ dw)[i]? =
              some (allowWriteStmt e) ∧
          (profileHeader ++ optPortLines hp ++ optPortLines sp
            ++ ("(allow file-read*)" :: dr) ++ aw ++ dw)[j]? =
              some (denyWriteStmt e) := by
  constructor
  · unfold generate_profile add_filesystem_rules
    rw [hdr, haw, hdw]
    simp [List.append_assoc]
  · intro p e hpw hpd hexp
    exact append_index_pair
      (profileHeader ++ optPortLines hp ++ optPortLines sp
        ++ ("(allow file-read*)" :: dr)) aw dw _ _
      (expandAndFormat_mem expand allowWriteStmt fs.allow_write aw haw p e hpw hexp)
      (expandAndFormat_mem expand denyWriteStmt fs.deny_write dw hdw p e hpd hexp)

/-- Path expansion environment used in concrete instantiations: every
path expands to itself. -/
def egExpand : String → Except SandboxErrorM String := fun p => Except.ok p

/-- Witness for C6 at concrete inputs: with the path /data in both
allowWrite and denyWrite, the generated statement list places the
deny file-write line strictly after the allow file-write line. -/
theorem generate_profile_order_spec_witness :
    expandAndFormat egExpand denyReadStmt ["/secret"] =
        Except.ok [denyReadStmt "/secret"]
    ∧ expandAndFormat egExpand allowWriteStmt ["/data"] =
        Except.ok [allowWriteStmt "/data"]
    ∧ expandAndFormat egExpand denyWriteStmt ["/data"] =
        Except.ok [denyWriteStmt "/data"]
    ∧ ∃ i j : Nat, i < j ∧
        (profileHeader ++ optPortLines (some 3128) ++ optPortLines (some 1080)
          ++ ("(allow file-read*)" :: [denyReadStmt "/secret"])
          ++ [allowWriteStmt "/data"] ++ [denyWriteStmt "/data"])[i]? =
            some (allowWriteStmt "/data") ∧
        (profileHeader ++ optPortLines (some 3128) ++ optPortLines (some 1080)
          ++ ("(allow file-read*)" :: [denyReadStmt "/secret"])
          ++ [allowWriteStmt "/data"] ++ [denyWriteStmt "/data"])[j]? =
            some (denyWriteStmt "/data") :=
  ⟨rfl, rfl, rfl,
    (generate_profile_order_spec ⟨["/secret"], ["/data"], ["/data"]⟩
        (some 3128) (some 1080) egExpand
        [denyReadStmt "/secret"] [allowWriteStmt "/data"] [denyWriteStmt "/data"]
        rfl rfl rfl).2 "/data" "/data" (by simp) (by simp) rfl⟩

/-- C7: under successful path expansion, the Linux argument list starts
with the read-only root bind, followed by one read-write bind triple per
allowWrite path whose expansion exists on disk (non-existent expansions
are silently skipped, never an error), followed by the fresh /tmp, /dev
and /proc mounts; an existing expanded allowWrite path always has its
bind triple somewhere in the list. -/
theorem add_filesystem_args_spec (fs : FilesystemConfigM)
    (expand : String → Except SandboxErrorM String) (path_exists : String → Bool)
    (es : List String)
    (hes : expandAndFormat expand (fun x => x) fs.allow_write = Except.ok es) :
    add_filesystem_args expand path_exists fs = Except.ok
      (["--ro-bind", "/", "/"]
        ++ (es.filter path_exists).flatMap (fun e => ["--bind", e, e])
        ++ ["--tmpfs", "/tmp", "--dev", "/dev", "--proc", "/proc"])
    ∧ ∀ p e, p ∈ fs.allow_write → expand p = Except.ok e → path_exists e = true →
        List.IsInfix ["--bind", e, e]
          (["--ro-bind", "/", "/"]
            ++ (es.filter path_exists).flatMap (fun e => ["--bind", e, e])
            ++ ["--tmpfs", "/tmp", "--dev", "/dev", "--proc", "/proc"]) := by
  constructor
  · unfold add_filesystem_args
    rw [bwrapBindArgs_eq expand path_exists fs.allow_write es hes]
  · intro p e hpw hexp hpe
    refine infix_extend _ _ (infix_flatMap (fun e => ["--bind", e, e]) ?_)
    exact List.mem_filter.mpr
      ⟨expandAndFormat_mem expand (fun x => x) fs.allow_write es hes p e hpw hexp,
        hpe⟩

/-- Existence environment used in concrete instantiations: only /data
exists on disk. -/
def egExists : String → Bool := fun p => p == "/data"

/-- Witness for C7 at concrete inputs: of the two allowWrite paths /data
and /missing, only the existing /data contributes a read-write bind
triple, and the missing path causes no error. -/
theorem add_filesystem_args_spec_witness :
    expandAndFormat egExpand (fun x => x) ["/data", "/missing"] =
        Except.ok ["/data", "/missing"]
    ∧ (["/data", "/missing"].filter egExists).flatMap
        (fun e => ["--bind", e, e]) = ["--bind", "/data", "/data"]
    ∧ add_filesystem_args egExpand egExists ⟨[], ["/data", "/missing"], []⟩ =
        Except.ok
          (["--ro-bind", "/", "/"]
            ++ (["/data", "/missing"].filter egExists).flatMap
                (fun e => ["--bind", e, e])
            ++ ["--tmpfs", "/tmp", "--dev", "/dev", "--proc", "/proc"]) :=
  ⟨rfl, by decide,
    (add_filesystem_args_spec ⟨[], ["/data", "/missing"], []⟩ egExpand egExists
        ["/data", "/missing"] rfl).1⟩

/-! ## Violation store

src/sandbox/violation_store.rs lines 9-105.  Subscriber callbacks are
opaque boxed closures in the source; they are modelled by identifiers
kept in registration order, and add_violation returns, along with the
updated store, the list of synchronous subscriber invocations it
performs (subscriber identifier paired with the violation passed). -/

/-- Kind of a recorded violation, mirroring ViolationType. -/
inductive ViolationType where
  | Network
  | FilesystemRead
  | FilesystemWrite
  | UnixSocket
  | Other
deriving DecidableEq, Repr

/-- One recorded violation, mirroring Violation; the SystemTime
timestamp is abstracted to a number. -/
structure Violation where
  violation_type : ViolationType
  target : String
  process : String
  timestamp : Nat
deriving DecidableEq, Repr

/-- The violation store: the append-only log and the subscribers in
registration order. -/
structure ViolationStore where
  violations : List Violation
  subscribers : List Nat
deriving DecidableEq, Repr

/-- Recording of a violation: append it to the log, then invoke every
subscriber synchronously with it; the returned trace lists those
invocations in subscriber order. -/
def ViolationStore.add_violation (s : ViolationStore) (v : Violation) :
    ViolationStore × List (Nat × Violation) :=
  ({ s with violations := s.violations ++ [v] },
    s.subscribers.map (fun id => (id, v)))

/-- Copy of the whole log, in insertion order. -/
def ViolationStore.get_violations (s : ViolationStore) : List Violation :=
  s.violations

/-- Copy of the log filtered to one violation kind, in insertion
order. -/
def ViolationStore.get_violations_by_type (s : ViolationStore)
    (t : ViolationType) : List Violation :=
  s.violations.filter (fun v => v.violation_type = t)

/-- Size of the log. -/
def ViolationStore.count (s : ViolationStore) : Nat :=
  s.violations.length

/-- Registration of one more subscriber; the set only grows. -/
def ViolationStore.subscribe (s : ViolationStore) (id : Nat) : ViolationStore :=
  { s with subscribers := s.subscribers ++ [id] }

/-- Emptying of the log only; subscribers are untouched. -/
def ViolationStore.clear (s : ViolationStore) : ViolationStore :=
  { s with violations := [] }

/-- C8: after add_violation the count grows by one, the query filtered
by the violation's kind includes it, the unfiltered query is the old log
with the violation appended (insertion order preserved), and the
invocation trace is exactly one synchronous call per previously
registered subscriber, each with the recorded violation — in particular
every subscriber identifier is invoked exactly as many times as it was
registered, always with that violation. -/
theorem add_violation_spec (s : ViolationStore) (v : Violation) :
    (s.add_violation v).1.count = s.count + 1
    ∧ v ∈ (s.add_violation v).1.get_violations_by_type v.violation_type
    ∧ (s.add_violation v).1.get_violations = s.get_violations ++ [v]
    ∧ (s.add_violation v).2 = s.subscribers.map (fun id => (id, v))
    ∧ ∀ id : Nat, (s.add_violation v).2.count (id, v) = s.subscribers.count id := by
  refine ⟨?_, ?_, rfl, rfl, ?_⟩
  · simp [ViolationStore.add_violation, ViolationStore.count]
  · simp [ViolationStore.add_violation, ViolationStore.get_violations_by_type,
      List.mem_filter]
  · intro id
    show (s.subscribers.map (fun i => (i, v))).count (id, v) = s.subscribers.count id
    induction s.subscribers with
    | nil => rfl
    | cons a l ih =>
      simp only [List.map_cons, List.count_cons, ih]
      congr 1
      simp [Prod.ext_iff]

/-! ## Sandbox manager

src/sandbox/manager.rs, src/sandbox/linux.rs lines 20-90,
src/sandbox/macos.rs lines 17-126, src/utils/platform.rs and
src/utils/exec.rs.  The environment record supplies everything the
manager observes from outside: the platform (fixed per build by
conditional compilation in the source, hence a parameter here), tool
lookup, path expansion and existence, shell quoting and joining (the
external shell_words crate), the temp directory and process id, the
filesystem write outcome, the docker driver outcomes, and the shell
execution outcome.  Side effects (docker driver calls, profile file
writes, child process spawns) are recorded in explicit traces. -/

/-- Platform as detected by get_platform. -/
inductive Platform where
  | MacOS
  | Linux
  | Windows
  | Unknown
deriving DecidableEq, Repr

/-- Name of the platform, mirroring Platform::as_str. -/
def Platform.as_str : Platform → String
  | .MacOS => "macos"
  | .Linux => "linux"
  | .Windows => "windows"
  | .Unknown => "unknown"

/-- Network policy, mirroring NetworkConfig fields the core consumes. -/
structure NetworkConfigM where
  allowed_domains : List String
  denied_domains : List String
deriving DecidableEq, Repr

/-- Container configuration, mirroring the DockerConfig fields the
manager consumes (image for the wrapped command line, auto_remove for
cleanup). -/
structure DockerConfigM where
  image : String
  auto_remove : Bool
deriving DecidableEq, Repr

/-- Runtime configuration, mirroring the SandboxRuntimeConfig fields the
manager consumes. -/
structure SandboxRuntimeConfigM where
  network : NetworkConfigM
  filesystem : FilesystemConfigM
  docker : Option DockerConfigM
deriving DecidableEq, Repr

/-- Observable side effect of the manager. -/
inductive Effect where
  | dockerCreateContainer
  | dockerStartContainer
  | dockerExecCommand (cmd : String)
  | dockerRemoveContainer
  | writeFile (path : String) (contents : String)
  | spawnShell (cmd : String)
deriving DecidableEq, Repr

/-- Environment of the manager: everything it observes from outside the
repository's own code. -/
structure ManagerEnv where
  platform : Platform
  command_exists : String → Bool
  get_command_path : String → Except SandboxErrorM String
  expand : String → Except SandboxErrorM String
  path_exists : String → Bool
  shellQuote : String → String
  shellJoin : List String → String
  temp_dir : String
  pid : Nat
  write_file : String → String → Except SandboxErrorM Unit
  docker_new : DockerConfigM → Except SandboxErrorM Unit
  docker_create : Except SandboxErrorM String
  docker_start : Except SandboxErrorM Unit
  docker_exec : String → Except SandboxErrorM Int
  docker_remove : Except SandboxErrorM Unit
  shell_status : String → Except SandboxErrorM Int

/-- The Linux sandbox builder state, mirroring LinuxSandbox. -/
structure LinuxSandbox where
  config : SandboxRuntimeConfigM
  bwrap_path : String
  socat_path : Option String
  python_path : Option String
  http_proxy_port : Option Nat
  socks_proxy_port : Option Nat
deriving DecidableEq, Repr

/-- Construction of the Linux sandbox: bubblewrap must be installed
(else CommandNotFound), its path is resolved, and the optional socat and
python3 paths are resolved when those tools exist. -/
def LinuxSandbox.new (env : ManagerEnv) (config : SandboxRuntimeConfigM) :
    Except SandboxErrorM LinuxSandbox :=
  if !(env.command_exists "bwrap") then
    Except.error (SandboxErrorM.CommandNotFound "bubblewrap (bwrap) is not installed")
  else
    match env.get_command_path "bwrap" with
    | Except.error e => Except.error e
    | Except.ok bp =>
      match (if env.command_exists "socat"
          then (env.get_command_path "socat").map some else Except.ok none) with
      | Except.error e => Except.error e
      | Except.ok sp =>
        match (if env.command_exists "python3"
            then (env.get_command_path "python3").map some else Except.ok none) with
        | Except.error e => Except.error e
        | Except.ok pp => Except.ok ⟨config, bp, sp, pp, none, none⟩

/-- Proxy-port environment arguments of the bubblewrap invocation. -/
def linuxProxyEnvArgs : Option Nat → List String
  | none => []
  | some hp =>
    ["--setenv", "HTTP_PROXY", "http://localhost:" ++ toString hp,
      "--setenv", "HTTPS_PROXY", "http://localhost:" ++ toString hp]

/-- The wrapped Linux invocation: bubblewrap with namespace unsharing,
the filesystem arguments, the proxy environment variables, and the user
command run through a shell. -/
def LinuxSandbox.wrap_command (sb : LinuxSandbox) (env : ManagerEnv)
    (command : String) : Except SandboxErrorM String :=
  match add_filesystem_args env.expand env.path_exists sb.config.filesystem with
  | Except.error e => Except.error e
  | Except.ok fsArgs =>
    let args := ["--unshare-net", "--unshare-ipc"] ++ fsArgs
      ++ linuxProxyEnvArgs sb.http_proxy_port
      ++ ["sh", "-c", command]
    Except.ok (sb.bwrap_path ++ " " ++ env.shellJoin args)

/-- The macOS sandbox builder state, mirroring MacOSSandbox. -/
structure MacOSSandbox where
  config : SandboxRuntimeConfigM
  http_proxy_port : Option Nat
  socks_proxy_port : Option Nat
deriving DecidableEq, Repr

/-- Construction of the macOS sandbox: the profile executor must be
available, else UnsupportedPlatform. -/
def MacOSSandbox.new (env : ManagerEnv) (config : SandboxRuntimeConfigM) :
    Except SandboxErrorM MacOSSandbox :=
  if !(env.command_exists "sandbox-exec") then
    Except.error (SandboxErrorM.UnsupportedPlatform
      "sandbox-exec is not available on this system")
  else Except.ok ⟨config, none, none⟩

/-- The wrapped macOS invocation: generate the profile, write it to the
process-scoped temp file (recorded as an effect), and run the command
through the profile executor and a shell. -/
def MacOSSandbox.wrap_command (sb : MacOSSandbox) (env : ManagerEnv)
    (command : String) : Except SandboxErrorM String × List Effect :=
  match generate_profile sb.config.filesystem sb.http_proxy_port
      sb.socks_proxy_port env.expand with
  | Except.error e => (Except.error e, [])
  | Except.ok lines =>
    let profile := profileText lines
    let profile_path :=
      env.temp_dir ++ "/srt-profile-" ++ toString env.pid ++ ".sb"
    match env.write_file profile_path profile with
    | Except.error e => (Except.error e, [Effect.writeFile profile_path profile])
    | Except.ok _ =>
      (Except.ok ("sandbox-exec -f " ++ profile_path ++ " sh -c "
        ++ env.shellQuote command),
        [Effect.writeFile profile_path profile])

/-- The manager state, mirroring SandboxManager: the configuration, the
two proxy handles (modelled by the bound port when running), the
violation store and the initialized flag. -/
structure SandboxManager where
  config : SandboxRuntimeConfigM
  http_proxy : Option Nat
  socks_proxy : Option Nat
  violation_store : ViolationStore
  initialized : Bool
deriving DecidableEq, Repr

/-- The wrapped invocation built by the manager: fails with Execution
when not initialized; with a docker configuration, a docker run command
line; otherwise the platform's builder is constructed, given both proxy
ports, and asked for the wrapped invocation (only the macOS path
performs a side effect, the profile file write). -/
def SandboxManager.wrap_command (m : SandboxManager) (env : ManagerEnv)
    (command : String) : Except SandboxErrorM String × List Effect :=
  if !m.initialized then
    (Except.error (SandboxErrorM.Execution
      "SandboxManager not initialized. Call initialize() first."), [])
  else
    match m.config.docker with
    | some dc => (Except.ok ("docker run --rm " ++ dc.image ++ " " ++ command), [])
    | none =>
      match env.platform with
      | Platform.Linux =>
        match m.http_proxy with
        | none => (Except.error (SandboxErrorM.Execution "HTTP proxy not started"), [])
        | some hp =>
          match m.socks_proxy with
          | none =>
            (Except.error (SandboxErrorM.Execution "SOCKS proxy not started"), [])
          | some sp =>
            match LinuxSandbox.new env m.config with
            | Except.error e => (Except.error e, [])
            | Except.ok sb =>
              (LinuxSandbox.wrap_command
                { sb with http_proxy_port := some hp, socks_proxy_port := some sp }
                env command, [])
      | Platform.MacOS =>
        match m.http_proxy with
        | none => (Except.error (SandboxErrorM.Execution "HTTP proxy not started"), [])
        | some hp =>
          match m.socks_proxy with
          | none =>
            (Except.error (SandboxErrorM.Execution "SOCKS proxy not started"), [])
          | some sp =>
            match MacOSSandbox.new env m.config with
            | Except.error e => (Except.error e, [])
            | Except.ok sb =>
              MacOSSandbox.wrap_command
                { sb with http_proxy_port := some hp, socks_proxy_port := some sp }
                env command
      | p =>
        (Except.error (SandboxErrorM.UnsupportedPlatform
          ("Platform " ++ p.as_str ++ " is not supported")), [])

/-- Execution of a command by the manager: with a docker configuration
it delegates entirely to the docker driver (create, start, exec, remove
when auto_remove), without consulting the initialized flag; otherwise it
builds the wrapped invocation (which requires initialization) and runs
it through a shell, returning the child status verbatim. -/
def SandboxManager.execute (m : SandboxManager) (env : ManagerEnv)
    (command : String) : Except SandboxErrorM Int × List Effect :=
  match m.config.docker with
  | some dc =>
    match env.docker_new dc with
    | Except.error e => (Except.error e, [])
    | Except.ok _ =>
      match env.docker_create with
      | Except.error e => (Except.error e, [Effect.dockerCreateContainer])
      | Except.ok _cid =>
        match env.docker_start with
        | Except.error e =>
          (Except.error e, [Effect.dockerCreateContainer, Effect.dockerStartContainer])
        | Except.ok _ =>
          match env.docker_exec command with
          | Except.error e =>
            (Except.error e, [Effect.dockerCreateContainer,
              Effect.dockerStartContainer, Effect.dockerExecCommand command])
          | Except.ok code =>
            if dc.auto_remove then
              match env.docker_remove with
              | Except.error e =>
                (Except.error e, [Effect.dockerCreateContainer,
                  Effect.dockerStartContainer, Effect.dockerExecCommand command,
                  Effect.dockerRemoveContainer])
              | Except.ok _ =>
                (Except.ok code, [Effect.dockerCreateContainer,
                  Effect.dockerStartContainer, Effect.dockerExecCommand command,
                  Effect.dockerRemoveContainer])
            else
              (Except.ok code, [Effect.dockerCreateContainer,
                Effect.dockerStartContainer, Effect.dockerExecCommand command])
  | none =>
    match m.wrap_command env command with
    | (Except.error e, eff) => (Except.error e, eff)
    | (Except.ok wrapped, eff) =>
      match env.shell_status wrapped with
      | Except.error e => (Except.error e, eff ++ [Effect.spawnShell wrapped])
      | Except.ok status => (Except.ok status, eff ++ [Effect.spawnShell wrapped])

/-- Reset of the manager: drop both proxy handles and return to the
uninitialized state; always succeeds. -/
def SandboxManager.reset (m : SandboxManager) :
    Except SandboxErrorM Unit × SandboxManager :=
  (Except.ok (),
    { m with http_proxy := none, socks_proxy := none, initialized := false })

/-! ## Claim theorems about the manager -/

/-- C9: reset always succeeds, leaves the state uninitialized with both
proxy handles empty, and is idempotent — resetting the result again
succeeds and yields the very same state. -/
theorem reset_idempotent_spec (m : SandboxManager) :
    (m.reset).1 = Except.ok ()
    ∧ (m.reset).2.initialized = false
    ∧ (m.reset).2.http_proxy = none
    ∧ (m.reset).2.socks_proxy = none
    ∧ ((m.reset).2.reset).1 = Except.ok ()
    ∧ ((m.reset).2.reset).2 = (m.reset).2 :=
  ⟨rfl, rfl, rfl, rfl, rfl, rfl⟩

/-- C3 amended: on a manager that has not been initialized,
wrap_command always fails with the Execution error and performs no side
effect; execute does the same whenever no docker configuration is
present (with a docker configuration, execute delegates to the docker
driver without consulting the initialized flag). -/
theorem manager_uninitialized_gate_spec (m : SandboxManager) (env : ManagerEnv)
    (command : String) (h : m.initialized = false) :
    m.wrap_command env command =
      (Except.error (SandboxErrorM.Execution
        "SandboxManager not initialized. Call initialize() first."), [])
    ∧ (m.config.docker = none →
        m.execute env command =
          (Except.error (SandboxErrorM.Execution
            "SandboxManager not initialized. Call initialize() first."), [])) := by
  have hw : m.wrap_command env command =
      (Except.error (SandboxErrorM.Execution
        "SandboxManager not initialized. Call initialize() first."), []) := by
    unfold SandboxManager.wrap_command
    rw [h]
    rfl
  refine ⟨hw, fun hd => ?_⟩
  unfold SandboxManager.execute
  rw [hd, hw]

/-- Environment used in the concrete manager instantiations: Linux
platform, every tool present, identity expansion and quoting, every
external operation succeeding. -/
def egEnv : ManagerEnv :=
  { platform := Platform.Linux
    command_exists := fun _ => true
    get_command_path := fun c => Except.ok ("/usr/bin/" ++ c)
    expand := fun p => Except.ok p
    path_exists := fun _ => true
    shellQuote := fun s => s
    shellJoin := fun args => String.intercalate " " args
    temp_dir := "/tmp"
    pid := 1234
    write_file := fun _ _ => Except.ok ()
    docker_new := fun _ => Except.ok ()
    docker_create := Except.ok "cid"
    docker_start := Except.ok ()
    docker_exec := fun _ => Except.ok 0
    docker_remove := Except.ok ()
    shell_status := fun _ => Except.ok 0 }

/-- Uninitialized manager whose configuration carries a docker section. -/
def egManagerDocker : SandboxManager :=
  { config :=
      { network := ⟨[], []⟩
        filesystem := ⟨[], [], []⟩
        docker := some { image := "ubuntu", auto_remove := true } }
    http_proxy := none
    socks_proxy := none
    violation_store := ⟨[], []⟩
    initialized := false }

/-- Uninitialized manager without a docker configuration. -/
def egManagerPlain : SandboxManager :=
  { config :=
      { network := ⟨[], []⟩
        filesystem := ⟨[], [], []⟩
        docker := none }
    http_proxy := none
    socks_proxy := none
    violation_store := ⟨[], []⟩
    initialized := false }

/-- C3 counterexample: on an uninitialized manager whose configuration
has a docker section, execute does not fail with an Execution error — it
delegates to the docker driver, creating, starting, exec-ing in and
removing a container, and returns the exit code. -/
theorem execute_uninitialized_docker_counterexample :
    egManagerDocker.initialized = false
    ∧ egManagerDocker.execute egEnv "ls" =
        (Except.ok 0,
          [Effect.dockerCreateContainer, Effect.dockerStartContainer,
            Effect.dockerExecCommand "ls", Effect.dockerRemoveContainer]) :=
  ⟨rfl, rfl⟩

/-- Witness for C3 amended at concrete inputs: the uninitialized
docker-free manager rejects both wrap_command and execute with the
Execution error and an empty effect trace. -/
theorem manager_uninitialized_gate_spec_witness :
    egManagerPlain.initialized = false
    ∧ egManagerPlain.config.docker = none
    ∧ egManagerPlain.wrap_command egEnv "ls" =
        (Except.error (SandboxErrorM.Execution
          "SandboxManager not initialized. Call initialize() first."), [])
    ∧ egManagerPlain.execute egEnv "ls" =
        (Except.error (SandboxErrorM.Execution
          "SandboxManager not initialized. Call initialize() first."), []) :=
  ⟨rfl, rfl,
    (manager_uninitialized_gate_spec egManagerPlain egEnv "ls" rfl).1,
    (manager_uninitialized_gate_spec egManagerPlain egEnv "ls" rfl).2 rfl⟩
